import Mathlib

/-!
Verification development for the "lavicka" repository.

Part 1 models the memory MCP server (`mcp-server/src/index.ts`): the
relationship store keyed by `pairKey`, and the `pamet_aktualizuj_vztah` /
`pamet_vztah` tool handlers.

Part 2 models the behavior-scheduling engine.  The engine's Python sources
(`game/engine/*.py`) are not present in the repository snapshot; only the
technical documentation (with pseudocode for the permission gate, the
consecutive-speaker cap, the anti-repetition classifier and the scene
liveness tracker) is.  Those definitions are therefore modelled from the
spec and the repository documentation, as noted on each of them.

Real numbers of the source become `ℚ` so that everything is executable and
decidable; machine floats' rounding is irrelevant to the claims checked here.
-/

/-- Relationship phase, from the `Vztah.faze` union type in
`mcp-server/src/index.ts` (`"cizinci" | "tvare" | "znami" | "pratele"`). -/
inductive Faze where
  | cizinci
  | tvare
  | znami
  | pratele
deriving DecidableEq, Repr

/-- Relationship record, from `interface Vztah` in `mcp-server/src/index.ts`
(the `id` field always equals the store key and is omitted). -/
structure Vztah where
  osoba_a : String
  osoba_b : String
  faze : Faze
  tykani : Bool
  sympatie : ℚ
  historie : List String
deriving DecidableEq, Repr

/-- Arguments of the `pamet_aktualizuj_vztah` tool
(`mcp-server/src/index.ts`, input schema of the tool): only `osoba_a` and
`osoba_b` are required, the rest may be absent. -/
structure UpdateVztahArgs where
  osoba_a : String
  osoba_b : String
  faze : Option Faze
  tykani : Option Bool
  sympatie_zmena : Option ℚ
  udalost : Option String
deriving DecidableEq, Repr

/-- `pairKey` from `mcp-server/src/index.ts`:
`[a, b].sort().join("__")`.  Sorting a two-element array keeps the smaller
string first, so the result is `min ++ "__" ++ max` in the string order. -/
def pairKey (a b : String) : String :=
  if a ≤ b then a ++ "__" ++ b else b ++ "__" ++ a

/-- The relationship store of the server: the `vztahy` record of the global
`"_vztahy"` entry, a map from pair keys to relationship records.  Modelled as
a partial lookup function. -/
def VztahStore : Type := String → Option Vztah

/-- `.slice(-10)` of JavaScript on a list: the last `n` elements. -/
def lastN (n : Nat) (l : List α) : List α :=
  l.drop (l.length - n)

/-- The record constructed by the `pamet_aktualizuj_vztah` handler
(`mcp-server/src/index.ts` lines 431-451) from the existing record (if any)
and the call arguments.  `x || y` on the optional string/number fields is
modelled by `Option.getD` (the JavaScript falsy cases `""` and `0` coincide
with the defaults used there). -/
def updatedVztah (existing : Option Vztah) (args : UpdateVztahArgs) : Vztah :=
  { osoba_a := args.osoba_a
    osoba_b := args.osoba_b
    faze := args.faze.getD ((existing.map (·.faze)).getD .cizinci)
    tykani :=
      match args.tykani with
      | some t => t
      | none => (existing.map (·.tykani)).getD false
    sympatie :=
      max (-1) (min 1 (((existing.map (·.sympatie)).getD 0)
        + args.sympatie_zmena.getD 0))
    historie :=
      lastN 10 (((existing.map (·.historie)).getD [])
        ++ (match args.udalost with | some u => [u] | none => [])) }

/-- The `pamet_aktualizuj_vztah` tool handler: writes the updated record at
`pairKey(osoba_a, osoba_b)` and leaves every other key unchanged. -/
def pamet_aktualizuj_vztah (store : VztahStore) (args : UpdateVztahArgs) :
    VztahStore :=
  fun k =>
    if k = pairKey args.osoba_a args.osoba_b then
      some (updatedVztah (store (pairKey args.osoba_a args.osoba_b)) args)
    else store k

/-- The `pamet_vztah` tool handler (read side): looks up the record stored at
`pairKey(osoba_a, osoba_b)`. -/
def pamet_vztah (store : VztahStore) (osoba_a osoba_b : String) :
    Option Vztah :=
  store (pairKey osoba_a osoba_b)

/-! ## Behavior engine: state model

Modelled from the spec: the engine sources (`game/engine/*.py`) are missing
from the repository snapshot; the definitions below follow the spec (§3-§4)
and the pseudocode in the repository's technical documentation. -/

/-- Modelled from the spec: `WorldEventType` (`engine/types.py` is missing;
spec §3 `WorldEvent.kind`). -/
inductive WorldEventType where
  | stimulus
  | pressure
  | silence
deriving DecidableEq, Repr

/-- Modelled from the spec: `WorldEvent` descriptor (spec §3). -/
structure WorldEvent where
  kind : WorldEventType
  target : Option String
  intensity : ℚ
deriving DecidableEq, Repr

/-- Modelled from the spec: `ResponseType` (`engine/types.py` is missing;
spec §3 `ResponseCategory`, with the text payload kept separately). -/
inductive ResponseType where
  | speech
  | thought
  | action
  | nothing
  | goodbye
deriving DecidableEq, Repr

/-- Modelled from the spec: `NPCBehaviorState` (`engine/types.py` is missing;
spec §3 `AgentBehaviorState` and the documentation's field list). -/
structure NPCBehaviorState where
  npc_id : String
  speak_drive : ℚ
  stay_drive : ℚ
  engagement_drive : ℚ
  cooldown_turns : ℕ
  energy : ℚ
  last_acted_turn : ℤ
  last_selected_turn : ℤ
  last_addressed_turn : ℤ
deriving DecidableEq, Repr

/-- Modelled from the spec: `SceneContext` (`engine/types.py` is missing;
spec §3 `SceneLivenessState`). -/
structure SceneContext where
  turn_number : ℕ
  scene_energy : ℚ
  consecutive_silence : ℕ
  consecutive_inactivity : ℕ
deriving DecidableEq, Repr

/-- Clamp a rational into `[0,1]`; the engine applies this after every drive
or energy mutation (spec §4.2, §7). -/
def clamp01 (x : ℚ) : ℚ := max 0 (min 1 x)

/-! ## Scene liveness tracker -/

/-- `on_speech` transition: big activity, resets both counters, energy +0.1
(documentation, `SceneContext` section). Modelled from the spec. -/
def on_speech (c : SceneContext) : SceneContext :=
  { c with consecutive_silence := 0, consecutive_inactivity := 0,
           scene_energy := clamp01 (c.scene_energy + mkRat 1 10) }

/-- `on_action` transition: medium activity, resets inactivity only,
energy +0.03. Modelled from the spec. -/
def on_action (c : SceneContext) : SceneContext :=
  { c with consecutive_silence := c.consecutive_silence + 1,
           consecutive_inactivity := 0,
           scene_energy := clamp01 (c.scene_energy + mkRat 3 100) }

/-- `on_thought` transition: small activity, resets inactivity only,
energy +0.01. Modelled from the spec. -/
def on_thought (c : SceneContext) : SceneContext :=
  { c with consecutive_silence := c.consecutive_silence + 1,
           consecutive_inactivity := 0,
           scene_energy := clamp01 (c.scene_energy + mkRat 1 100) }

/-- `on_nothing` transition: no activity, both counters grow, energy -0.07.
Modelled from the spec. -/
def on_nothing (c : SceneContext) : SceneContext :=
  { c with consecutive_silence := c.consecutive_silence + 1,
           consecutive_inactivity := c.consecutive_inactivity + 1,
           scene_energy := clamp01 (c.scene_energy - mkRat 7 100) }

/-- `is_dying` (documentation pseudocode:
`consecutive_inactivity >= 2 and scene_energy < 0.15`).
Modelled from the spec. -/
def is_dying (c : SceneContext) : Bool :=
  2 ≤ c.consecutive_inactivity ∧ c.scene_energy < mkRat 3 20

/-! ## Drive updater -/

/-- Modelled from the spec: `DriveUpdater.update_drives`
(`engine/drive_update.py` is missing).  Boost/penalty triggers and the
engagement constants (+0.35 address, +0.25 question combined by maximum,
+0.10·intensity pressure, -0.05 silence decay, -0.06 selected-not-addressed,
per-turn growth cap +0.45) follow spec §4.2 and the documentation; the
magnitudes the documentation leaves unspecified (silence growth, low-energy,
cooldown and repetition penalties for the two drives) are representative
constants.  Every field is clamped to `[0,1]`, as the spec requires of every
mutation. -/
def update_drives (st : NPCBehaviorState) (mluvnost : ℚ) (ev : WorldEvent)
    (scene : SceneContext) (anti_rep_penalty : ℚ)
    (was_addressed was_asked_question was_selected_not_addressed : Bool) :
    NPCBehaviorState :=
  let pressure_on_me : Bool :=
    ev.kind = WorldEventType.pressure ∧ ev.target = some st.npc_id
  let speak_delta : ℚ :=
    (if pressure_on_me then mkRat 1 4 else 0)
    + (if was_addressed then mkRat 3 20 else 0)
    + (if ev.kind = WorldEventType.silence ∧ mkRat 3 10 < mluvnost then mkRat 1 20 else 0)
    - (if st.energy < mkRat 3 10 then mkRat 1 10 else 0)
    - (if 0 < st.cooldown_turns then mkRat 1 10 else 0)
    - anti_rep_penalty / 5
  let stay_delta : ℚ :=
    (if is_dying scene then -(mkRat 3 20) else 0)
    + (if 3 ≤ scene.consecutive_silence then -(mkRat 1 10) else 0)
    + (if st.energy < mkRat 3 10 then -(mkRat 1 10) else 0)
    + (if mkRat 3 5 < anti_rep_penalty then -(mkRat 1 10) else 0)
    + (if mkRat 3 5 < scene.scene_energy then mkRat 1 10 else 0)
  let engagement_gain : ℚ :=
    min (mkRat 9 20)
      (max (if was_addressed then mkRat 7 20 else 0)
           (if was_asked_question then mkRat 1 4 else 0)
       + (if pressure_on_me then ev.intensity / 10 else 0))
  let engagement_decay : ℚ :=
    (if ev.kind = WorldEventType.silence ∧ ¬ was_addressed then mkRat 1 20 else 0)
    + (if was_selected_not_addressed then mkRat 3 50 else 0)
  { st with
    speak_drive := clamp01 (st.speak_drive + speak_delta)
    stay_drive := clamp01 (st.stay_drive + stay_delta)
    engagement_drive :=
      clamp01 (st.engagement_drive + engagement_gain - engagement_decay)
    energy := clamp01 (st.energy + mkRat 1 20) }

/-- Modelled from the spec: `DriveUpdater.on_after_speech` — after speaking,
speech drive drops, energy pays the speech cost (0.15) and a one-turn
cooldown starts; the drive and energy mutations clamp to `[0,1]`. -/
def on_after_speech (st : NPCBehaviorState) : NPCBehaviorState :=
  { st with
    speak_drive := clamp01 (st.speak_drive - mkRat 2 5)
    energy := clamp01 (st.energy - mkRat 3 20)
    cooldown_turns := 1 }

/-! ## Permission gate -/

/-- Outcome of the permission gate: call the external response producer, or
resolve locally without any external call. -/
inductive GateResult where
  | call_producer
  | local_action
  | local_nothing
deriving DecidableEq, Repr

/-- Modelled from the spec: the permission gate evaluated before the external
producer call (documentation pseudocode:
`if engagement_drive < 0.25 and speak_drive < 0.65:
   return ACTION if speak_drive > 0.45 else NOTHING`). -/
def permission_gate (engagement_drive speak_drive : ℚ) : GateResult :=
  if engagement_drive < mkRat 1 4 ∧ speak_drive < mkRat 13 20 then
    if mkRat 9 20 < speak_drive then GateResult.local_action
    else GateResult.local_nothing
  else GateResult.call_producer

/-! ## Anti-repetition tracker -/

/-- Strip leading and trailing whitespace from a character list. -/
def trim_chars (l : List Char) : List Char :=
  ((l.dropWhile fun c => c.isWhitespace).reverse.dropWhile
    fun c => c.isWhitespace).reverse

/-- Modelled from the spec: text normalization used by the duplicate check
(details unspecified in the documentation; ASCII lowercasing plus
whitespace-trim, written over the character list so that it evaluates by
kernel reduction). -/
def normalize_text (s : String) : String :=
  String.mk (trim_chars (s.data.map Char.toLower))

/-- Modelled from the spec: `_extract_start` — the normalized first word of
an utterance (documentation: `_extract_start("Ano, máte pravdu.") -> "ano"`);
the leading word is lowercased and stripped of trailing punctuation. -/
def extract_start (s : String) : String :=
  String.mk ((((s.data.dropWhile fun c => c.isWhitespace).takeWhile
    fun c => ¬ c.isWhitespace).map Char.toLower).takeWhile Char.isAlpha)

/-- Modelled from the spec: per-agent `RepetitionHistory` — the bounded
window of previously accepted utterances (newest first) and the recorded
leading tokens of accepted utterances (the frequency table, kept as the list
of recorded tokens; a token's count is its multiplicity). -/
structure RepHistory where
  recent : List String
  starts : List String
deriving DecidableEq, Repr

/-- The empty repetition history of a fresh agent. -/
def RepHistory.empty : RepHistory := ⟨[], []⟩

/-- Modelled from the spec: the bounded-window size of `recent`
(unspecified in the documentation; any positive constant works for the
claims checked here). -/
def rep_window : ℕ := 5

/-- Modelled from the spec: `record_speech` — called only for a finally
accepted speech; pushes the utterance into the bounded window and records
its leading token. -/
def record_speech (h : RepHistory) (text : String) : RepHistory :=
  { recent := (text :: h.recent).take rep_window
    starts := extract_start text :: h.starts }

/-- Modelled from the spec: `get_penalty` — the repeated-opening-token
penalty table of the documentation (`anti_repetition.py` is missing):
0 prior occurrences of the proposal's leading token → 0,
1 prior occurrence → 0.2, 2 → 0.5, 3 or more → 0.8.
The optional lexical-overlap component the spec mentions is unspecified and
not part of the documented table. -/
def get_penalty (h : RepHistory) (text : String) : ℚ :=
  match h.starts.count (extract_start text) with
  | 0 => 0
  | 1 => mkRat 1 5
  | 2 => mkRat 1 2
  | _ => mkRat 4 5

/-- Result classes of `get_rejection_action`. -/
inductive RejectionAction where
  | accept
  | downgrade_to_thought
  | downgrade_to_action
  | reject
deriving DecidableEq, Repr

/-- `get_rejection_action`'s classification of a penalty (documentation
pseudocode: `p < 0.4 → accept`, `p < 0.6 → downgrade_to_thought`,
`p < 0.8 → downgrade_to_action`, else `reject`). Modelled from the spec. -/
def classify_penalty (p : ℚ) : RejectionAction :=
  if p < mkRat 2 5 then RejectionAction.accept
  else if p < mkRat 3 5 then RejectionAction.downgrade_to_thought
  else if p < mkRat 4 5 then RejectionAction.downgrade_to_action
  else RejectionAction.reject

/-- Modelled from the spec: `get_rejection_action` — classify the penalty of
the proposed text against the current history. -/
def get_rejection_action (h : RepHistory) (text : String) : RejectionAction :=
  classify_penalty (get_penalty h text)

/-- Modelled from the spec: the generic filler action substituted on a
downgrade to action (first entry of the documentation's `generic_actions`
pool; the pool choice is random in the source and irrelevant here). -/
def generic_action : String := "Podívá se na moře."

/-- Modelled from the spec: the hard duplicate check of `_process_response` —
is the proposal, after normalization, identical to the agent's most recent
accepted utterance? -/
def is_duplicate_of_last (h : RepHistory) (text : String) : Bool :=
  match h.recent.head? with
  | some last => normalize_text text = normalize_text last
  | none => false

/-- Outcome of processing one proposed speech: the committed category, the
committed text and the repetition history after the turn. -/
structure ProcessResult where
  category : ResponseType
  text : String
  history : RepHistory
deriving DecidableEq, Repr

/-- Modelled from the spec: `_process_response` for a proposed speech
(documentation pseudocode): first the hard duplicate check (downgrade to
action, nothing recorded), then the anti-repetition classification; only a
finally accepted speech calls `record_speech`. -/
def process_response (h : RepHistory) (text : String) : ProcessResult :=
  if is_duplicate_of_last h text then
    { category := ResponseType.action, text := generic_action, history := h }
  else
    match get_rejection_action h text with
    | RejectionAction.accept =>
        { category := ResponseType.speech, text := text,
          history := record_speech h text }
    | RejectionAction.downgrade_to_thought =>
        { category := ResponseType.thought, text := text, history := h }
    | RejectionAction.downgrade_to_action =>
        { category := ResponseType.action, text := generic_action,
          history := h }
    | RejectionAction.reject =>
        { category := ResponseType.nothing, text := "", history := h }

/-! ## Consecutive-speaker fairness cap -/

/-- Modelled from the spec: the orchestrator's consecutive-speaker tracking
state (`_last_speaker_id`, `_consecutive_speaker_count` of the
documentation's "Max consecutive speaker (v3.6)" pseudocode). -/
structure FairnessState where
  last_speaker : Option String
  consecutive_count : ℕ
deriving DecidableEq, Repr

/-- The fairness state at scene start: nobody has spoken. -/
def FairnessState.init : FairnessState := ⟨none, 0⟩

/-- Modelled from the spec: one turn of the orchestrator's fairness logic for
the selected agent `a`.  Before the producer call: if `a` was the last
speaker and has already spoken 2 consecutive turns, the turn is forced to
`action` without invoking the producer.  Otherwise the producer is invoked
and `proposed` is its committed category: after a speech the counter grows
(or restarts at 1 for a new speaker); after any non-speech outcome the
counter and the last-speaker id reset.  Returns
(committed category, whether the producer was invoked, next state). -/
def step_commit (fs : FairnessState) (a : String) (proposed : ResponseType) :
    ResponseType × Bool × FairnessState :=
  if fs.last_speaker = some a ∧ 2 ≤ fs.consecutive_count then
    (ResponseType.action, false, FairnessState.init)
  else
    match proposed with
    | ResponseType.speech =>
        (ResponseType.speech, true,
          ⟨some a,
           if fs.last_speaker = some a then fs.consecutive_count + 1 else 1⟩)
    | c => (c, true, FairnessState.init)

/-- The committed trace of a run: each step is the selected agent together
with the category the producer would return for it; the trace lists the
agent and the actually committed category, turn by turn. -/
def run_trace (fs : FairnessState) :
    List (String × ResponseType) → List (String × ResponseType)
  | [] => []
  | (a, p) :: rest =>
      let r := step_commit fs a p
      (a, r.1) :: run_trace r.2.2 rest

/-- Auxiliary invariant on a committed trace: scanning it with a live
consecutive-speaker counter starting at `(c, ls)` never pushes the counter
past 2. -/
def runs_ok (c : ℕ) (ls : Option String) :
    List (String × ResponseType) → Bool
  | [] => true
  | (a, ResponseType.speech) :: rest =>
      let c' := if ls = some a then c + 1 else 1
      decide (c' ≤ 2) && runs_ok c' (some a) rest
  | _ :: rest => runs_ok 0 none rest

/-! ## Concrete inputs used by witnesses and counterexamples -/

/-- A repetition history holding exactly two accepted utterances, both
opening with the token `"ano"`. -/
def hist_ano2 : RepHistory :=
  record_speech (record_speech RepHistory.empty "Ano, jistě.") "Ano, dobře."

/-- A repetition history holding three accepted utterances, all opening with
the token `"ano"`. -/
def hist_ano3 : RepHistory := record_speech hist_ano2 "Ano, vidím."

/-! ## Theorems -/

theorem clamp01_nonneg (x : ℚ) : 0 ≤ clamp01 x := le_max_left 0 _

theorem clamp01_le_one (x : ℚ) : clamp01 x ≤ 1 :=
  max_le (by norm_num) (min_le_left 1 x)


theorem pairKey_comm (a b : String) : pairKey a b = pairKey b a := by
  unfold pairKey
  rcases le_total a b with h | h
  · by_cases h' : b ≤ a
    · have hab : a = b := le_antisymm h h'
      subst hab
      simp
    · simp [h, h']
  · by_cases h' : a ≤ b
    · have hab : a = b := le_antisymm h' h
      subst hab
      simp
    · simp [h, h']

/-- C10: the relationship pair key is symmetric — `pairKey a b = pairKey b a`
for all ids — so `pamet_vztah` reads the same record regardless of argument
order, and a record written by `pamet_aktualizuj_vztah` under `(a, b)` is the
one found when reading under `(b, a)`. -/
theorem pairKey_symmetric_tools_agree (a b : String) (store : VztahStore)
    (args : UpdateVztahArgs) :
    pairKey a b = pairKey b a
    ∧ pamet_vztah store a b = pamet_vztah store b a
    ∧ pamet_vztah (pamet_aktualizuj_vztah store args) args.osoba_b args.osoba_a
        = some (updatedVztah (store (pairKey args.osoba_a args.osoba_b)) args) := by
  refine ⟨pairKey_comm a b, ?_, ?_⟩
  · unfold pamet_vztah
    rw [pairKey_comm]
  · unfold pamet_vztah pamet_aktualizuj_vztah
    rw [pairKey_comm args.osoba_b args.osoba_a]
    simp

/-- C9: after every `pamet_aktualizuj_vztah` call the stored relationship's
sympathy lies in `[-1, 1]`: the previous sympathy plus the requested change
is clamped to that interval before being saved. -/
theorem sympatie_clamped_after_update (store : VztahStore)
    (args : UpdateVztahArgs) :
    pamet_aktualizuj_vztah store args (pairKey args.osoba_a args.osoba_b)
      = some (updatedVztah (store (pairKey args.osoba_a args.osoba_b)) args)
    ∧ (∀ existing : Option Vztah,
        -1 ≤ (updatedVztah existing args).sympatie
        ∧ (updatedVztah existing args).sympatie ≤ 1) := by
  refine ⟨by unfold pamet_aktualizuj_vztah; simp, fun existing => ⟨?_, ?_⟩⟩
  · exact le_max_left (-1) _
  · exact max_le (by norm_num) (min_le_left 1 _)

/-- C1: after the drive update every agent's `speak_drive`, `stay_drive`,
`engagement_drive` and `energy` lie in `[0, 1]`, for arbitrary prior state
and inputs; the post-speech mutation (`on_after_speech`) likewise clamps the
fields it touches back into `[0, 1]`. -/
theorem drive_fields_clamped (st : NPCBehaviorState) (mluvnost : ℚ)
    (ev : WorldEvent) (scene : SceneContext) (anti_rep_penalty : ℚ)
    (was_addressed was_asked_question was_selected_not_addressed : Bool) :
    (0 ≤ (update_drives st mluvnost ev scene anti_rep_penalty
        was_addressed was_asked_question was_selected_not_addressed).speak_drive
      ∧ (update_drives st mluvnost ev scene anti_rep_penalty
        was_addressed was_asked_question was_selected_not_addressed).speak_drive ≤ 1)
    ∧ (0 ≤ (update_drives st mluvnost ev scene anti_rep_penalty
        was_addressed was_asked_question was_selected_not_addressed).stay_drive
      ∧ (update_drives st mluvnost ev scene anti_rep_penalty
        was_addressed was_asked_question was_selected_not_addressed).stay_drive ≤ 1)
    ∧ (0 ≤ (update_drives st mluvnost ev scene anti_rep_penalty
        was_addressed was_asked_question was_selected_not_addressed).engagement_drive
      ∧ (update_drives st mluvnost ev scene anti_rep_penalty
        was_addressed was_asked_question was_selected_not_addressed).engagement_drive ≤ 1)
    ∧ (0 ≤ (update_drives st mluvnost ev scene anti_rep_penalty
        was_addressed was_asked_question was_selected_not_addressed).energy
      ∧ (update_drives st mluvnost ev scene anti_rep_penalty
        was_addressed was_asked_question was_selected_not_addressed).energy ≤ 1)
    ∧ (0 ≤ (on_after_speech st).speak_drive ∧ (on_after_speech st).speak_drive ≤ 1)
    ∧ (0 ≤ (on_after_speech st).energy ∧ (on_after_speech st).energy ≤ 1) :=
  ⟨⟨clamp01_nonneg _, clamp01_le_one _⟩,
   ⟨clamp01_nonneg _, clamp01_le_one _⟩,
   ⟨clamp01_nonneg _, clamp01_le_one _⟩,
   ⟨clamp01_nonneg _, clamp01_le_one _⟩,
   ⟨clamp01_nonneg _, clamp01_le_one _⟩,
   ⟨clamp01_nonneg _, clamp01_le_one _⟩⟩

/-- C8: `is_dying` holds exactly when `consecutive_inactivity ≥ 2` and
`scene_energy < 0.15`, and committing a single `Thought` turn resets
`consecutive_inactivity` to 0 even though it is not speech (the silence
counter still grows). -/
theorem is_dying_iff_thought_resets (c : SceneContext) :
    (is_dying c = true
      ↔ 2 ≤ c.consecutive_inactivity ∧ c.scene_energy < 3/20)
    ∧ (on_thought c).consecutive_inactivity = 0
    ∧ (on_thought c).consecutive_silence = c.consecutive_silence + 1 := by
  refine ⟨?_, rfl, rfl⟩
  have h320 : (mkRat 3 20 : ℚ) = 3/20 := by rw [Rat.mkRat_eq_div]; norm_num
  simp [is_dying, h320]

/-- C3: whenever `engagement_drive < 0.25` and `speak_drive < 0.65` the
permission gate denies the external producer call and resolves the turn
locally — to `Action` exactly when `speak_drive > 0.45`, to `Nothing`
otherwise. -/
theorem permission_gate_denies_low_engagement (e s : ℚ)
    (he : e < 1/4) (hs : s < 13/20) :
    permission_gate e s ≠ GateResult.call_producer
    ∧ (permission_gate e s = GateResult.local_action ↔ 9/20 < s)
    ∧ (permission_gate e s = GateResult.local_nothing ↔ s ≤ 9/20) := by
  have h14 : (mkRat 1 4 : ℚ) = 1/4 := by rw [Rat.mkRat_eq_div]; norm_num
  have h1320 : (mkRat 13 20 : ℚ) = 13/20 := by rw [Rat.mkRat_eq_div]; norm_num
  have h920 : (mkRat 9 20 : ℚ) = 9/20 := by rw [Rat.mkRat_eq_div]; norm_num
  unfold permission_gate
  simp only [h14, h1320, h920]
  rw [if_pos ⟨he, hs⟩]
  split_ifs with h
  · simp [h]
  · simp [h, not_lt.mp h]

/-- C3 witness: an agent with `engagement_drive = 0.1` and
`speak_drive = 0.5` is gated away from the producer and resolves to
`Action`. -/
theorem permission_gate_denies_low_engagement_witness :
    permission_gate (1/10) (1/2) = GateResult.local_action
    ∧ permission_gate (1/10) (1/2) ≠ GateResult.call_producer :=
  ⟨(permission_gate_denies_low_engagement (1/10) (1/2) (by norm_num)
      (by norm_num)).2.1.mpr (by norm_num),
   (permission_gate_denies_low_engagement (1/10) (1/2) (by norm_num)
      (by norm_num)).1⟩

/-- C4: the rejection classification of a penalty `p` is exactly
`accept` iff `p < 0.4`, `downgrade_to_thought` iff `0.4 ≤ p < 0.6`,
`downgrade_to_action` iff `0.6 ≤ p < 0.8` and `reject` iff `p ≥ 0.8`;
a rejected (non-duplicate) proposal is committed as `Nothing`. -/
theorem rejection_classification (p : ℚ) (h : RepHistory) (t : String) :
    (classify_penalty p = RejectionAction.accept ↔ p < 2/5)
    ∧ (classify_penalty p = RejectionAction.downgrade_to_thought
        ↔ 2/5 ≤ p ∧ p < 3/5)
    ∧ (classify_penalty p = RejectionAction.downgrade_to_action
        ↔ 3/5 ≤ p ∧ p < 4/5)
    ∧ (classify_penalty p = RejectionAction.reject ↔ 4/5 ≤ p)
    ∧ (is_duplicate_of_last h t = false
        → get_rejection_action h t = RejectionAction.reject
        → (process_response h t).category = ResponseType.nothing) := by
  have h25 : (mkRat 2 5 : ℚ) = 2/5 := by rw [Rat.mkRat_eq_div]; norm_num
  have h35 : (mkRat 3 5 : ℚ) = 3/5 := by rw [Rat.mkRat_eq_div]; norm_num
  have h45 : (mkRat 4 5 : ℚ) = 4/5 := by rw [Rat.mkRat_eq_div]; norm_num
  have hcl : ∀ q : ℚ, classify_penalty q =
      (if q < 2/5 then RejectionAction.accept
       else if q < 3/5 then RejectionAction.downgrade_to_thought
       else if q < 4/5 then RejectionAction.downgrade_to_action
       else RejectionAction.reject) := by
    intro q
    unfold classify_penalty
    simp only [h25, h35, h45]
  refine ⟨?_, ?_, ?_, ?_, ?_⟩
  · rw [hcl]
    rcases lt_or_le p (2/5) with h1 | h1
    · rw [if_pos h1]
      exact iff_of_true rfl h1
    · rw [if_neg (not_lt.mpr h1)]
      split_ifs with h2 h3 <;>
        exact iff_of_false (by decide) (fun hq => absurd hq (not_lt.mpr h1))
  · rw [hcl]
    rcases lt_or_le p (2/5) with h1 | h1
    · rw [if_pos h1]
      exact iff_of_false (by decide) (fun hc => absurd hc.1 (not_le.mpr h1))
    · rw [if_neg (not_lt.mpr h1)]
      rcases lt_or_le p (3/5) with h2 | h2
      · rw [if_pos h2]
        exact iff_of_true rfl ⟨h1, h2⟩
      · rw [if_neg (not_lt.mpr h2)]
        split_ifs with h3 <;>
          exact iff_of_false (by decide) (fun hc => absurd hc.2 (not_lt.mpr h2))
  · rw [hcl]
    rcases lt_or_le p (2/5) with h1 | h1
    · rw [if_pos h1]
      exact iff_of_false (by decide) (fun hc => by linarith [hc.1])
    · rw [if_neg (not_lt.mpr h1)]
      rcases lt_or_le p (3/5) with h2 | h2
      · rw [if_pos h2]
        exact iff_of_false (by decide) (fun hc => absurd hc.1 (not_le.mpr h2))
      · rw [if_neg (not_lt.mpr h2)]
        rcases lt_or_le p (4/5) with h3 | h3
        · rw [if_pos h3]
          exact iff_of_true rfl ⟨h2, h3⟩
        · rw [if_neg (not_lt.mpr h3)]
          exact iff_of_false (by decide) (fun hc => absurd hc.2 (not_lt.mpr h3))
  · rw [hcl]
    rcases lt_or_le p (2/5) with h1 | h1
    · rw [if_pos h1]
      exact iff_of_false (by decide) (fun hq => by linarith)
    · rw [if_neg (not_lt.mpr h1)]
      rcases lt_or_le p (3/5) with h2 | h2
      · rw [if_pos h2]
        exact iff_of_false (by decide) (fun hq => by linarith)
      · rw [if_neg (not_lt.mpr h2)]
        rcases lt_or_le p (4/5) with h3 | h3
        · rw [if_pos h3]
          exact iff_of_false (by decide) (fun hq => by linarith)
        · rw [if_neg (not_lt.mpr h3)]
          exact iff_of_true rfl h3
  · intro hdup hrej
    unfold process_response
    rw [if_neg (by rw [hdup]; exact Bool.false_ne_true), hrej]

/-- C4 witness: at penalty `0.8` (three prior `"ano"` openings) the
classification is `reject` and the committed category is `Nothing`. -/
theorem rejection_classification_witness :
    classify_penalty (4/5) = RejectionAction.reject
    ∧ (process_response hist_ano3 "Ano, zase.").category
        = ResponseType.nothing :=
  ⟨(rejection_classification (4/5) hist_ano3 "Ano, zase.").2.2.2.1.mpr
      (by norm_num),
   (rejection_classification (4/5) hist_ano3 "Ano, zase.").2.2.2.2
      (by decide) (by decide)⟩

/-- C5: the repetition history is mutated only by a finally committed
`Speech`: whenever a proposal is downgraded or rejected (committed category
is not `Speech`) the history after the turn equals the history before it;
and an accepted proposal records exactly `record_speech`. -/
theorem history_unchanged_unless_final_speech (h : RepHistory) (t : String)
    (hns : (process_response h t).category ≠ ResponseType.speech) :
    (process_response h t).history = h := by
  unfold process_response at hns ⊢
  split_ifs at hns ⊢ with hd
  · rfl
  · cases hga : get_rejection_action h t <;> simp_all

/-- C5 witness: a downgraded proposal (two prior `"ano"` openings, penalty
`0.5`, committed as `Thought`) leaves the history untouched. -/
theorem history_unchanged_unless_final_speech_witness :
    (process_response hist_ano2 "Ano, chápu.").history = hist_ano2 :=
  history_unchanged_unless_final_speech hist_ano2 "Ano, chápu." (by decide)

/-- C6: a proposal whose normalized text equals the agent's most recent
accepted utterance is never committed as `Speech`, regardless of the
computed anti-repetition penalty. -/
theorem duplicate_never_committed_speech (h : RepHistory) (t last : String)
    (hh : h.recent.head? = some last)
    (hn : normalize_text t = normalize_text last) :
    (process_response h t).category ≠ ResponseType.speech := by
  have hd : is_duplicate_of_last h t = true := by
    unfold is_duplicate_of_last
    rw [hh]
    simp [hn]
  unfold process_response
  rw [if_pos hd]
  simp

/-- C6 witness: re-proposing the immediately preceding accepted utterance
(up to case) is not committed as `Speech` (it is downgraded to `Action`). -/
theorem duplicate_never_committed_speech_witness :
    (process_response (record_speech RepHistory.empty "Ahoj.") "ahoj.").category
      ≠ ResponseType.speech :=
  duplicate_never_committed_speech (record_speech RepHistory.empty "Ahoj.")
    "ahoj." "Ahoj." (by decide) (by decide)

/-- C7 counterexample: with exactly two prior accepted utterances both
opening with the token `"ano"`, a third `"ano"`-opening proposal receives
penalty `0.5` — not `≥ 0.8` — and is committed as `Thought`, not `Nothing`:
the documented penalty table maps two prior occurrences of an opening token
to the moderate penalty (`downgrade_to_thought`), reserving rejection for
three or more. -/
theorem third_same_start_not_rejected_cex :
    get_penalty hist_ano2 "Ano, chápu." = mkRat 1 2
    ∧ ¬ (mkRat 4 5 ≤ get_penalty hist_ano2 "Ano, chápu.")
    ∧ (process_response hist_ano2 "Ano, chápu.").category = ResponseType.thought
    ∧ (process_response hist_ano2 "Ano, chápu.").category ≠ ResponseType.nothing := by
  decide

/-- C7 (amended): with exactly two prior accepted utterances both starting
with the same normalized opening token, a third proposal starting with that
token (and not an exact duplicate of the immediately preceding utterance)
receives penalty `0.5`, is downgraded to `Thought`, and is not added to the
repetition history. -/
theorem third_same_start_downgraded_to_thought (u1 u2 t : String)
    (h1 : extract_start u1 = extract_start t)
    (h2 : extract_start u2 = extract_start t)
    (hnd : normalize_text t ≠ normalize_text u2) :
    get_penalty (record_speech (record_speech RepHistory.empty u1) u2) t
      = 1/2
    ∧ (process_response (record_speech (record_speech RepHistory.empty u1) u2)
        t).category = ResponseType.thought
    ∧ (process_response (record_speech (record_speech RepHistory.empty u1) u2)
        t).history = record_speech (record_speech RepHistory.empty u1) u2 := by
  set h := record_speech (record_speech RepHistory.empty u1) u2 with hdef
  have hstarts : h.starts = [extract_start u2, extract_start u1] := rfl
  have hcount : h.starts.count (extract_start t) = 2 := by
    rw [hstarts, h1, h2]
    simp
  have hpen : get_penalty h t = mkRat 1 2 := by
    unfold get_penalty
    rw [hcount]
  have hpen' : get_penalty h t = 1/2 := by
    rw [hpen, Rat.mkRat_eq_div]
    norm_num
  have hact : get_rejection_action h t
      = RejectionAction.downgrade_to_thought := by
    unfold get_rejection_action classify_penalty
    rw [hpen']
    have e25 : (mkRat 2 5 : ℚ) = 2/5 := by rw [Rat.mkRat_eq_div]; norm_num
    have e35 : (mkRat 3 5 : ℚ) = 3/5 := by rw [Rat.mkRat_eq_div]; norm_num
    rw [e25, e35, if_neg (by norm_num), if_pos (by norm_num)]
  have hhead : h.recent.head? = some u2 := rfl
  have hdup : is_duplicate_of_last h t = false := by
    unfold is_duplicate_of_last
    rw [hhead]
    simp [hnd]
  have hproc : process_response h t
      = { category := ResponseType.thought, text := t, history := h } := by
    unfold process_response
    rw [if_neg (by rw [hdup]; exact Bool.false_ne_true), hact]
  exact ⟨hpen', by rw [hproc], by rw [hproc]⟩

/-- C7 (amended) witness: two accepted `"Ano, …"` utterances followed by a
third `"Ano, …"` proposal — penalty `0.5`, committed as `Thought`, history
untouched. -/
theorem third_same_start_downgraded_to_thought_witness :
    get_penalty hist_ano2 "Ano, chápu." = 1/2
    ∧ (process_response hist_ano2 "Ano, chápu.").category
        = ResponseType.thought
    ∧ (process_response hist_ano2 "Ano, chápu.").history = hist_ano2 :=
  third_same_start_downgraded_to_thought "Ano, jistě." "Ano, dobře."
    "Ano, chápu." (by decide) (by decide) (by decide)

theorem runs_ok_run_trace (steps : List (String × ResponseType)) :
    ∀ fs : FairnessState, fs.consecutive_count ≤ 2 →
      runs_ok fs.consecutive_count fs.last_speaker (run_trace fs steps)
        = true := by
  induction steps with
  | nil => intro fs _; rfl
  | cons sp rest ih =>
      intro fs hle
      obtain ⟨a, p⟩ := sp
      by_cases hf : fs.last_speaker = some a ∧ 2 ≤ fs.consecutive_count
      · have hstep : run_trace fs ((a, p) :: rest)
            = (a, ResponseType.action) :: run_trace FairnessState.init rest := by
          simp [run_trace, step_commit, hf]
        rw [hstep]
        have hinit := ih FairnessState.init (by decide)
        simpa [runs_ok] using hinit
      · cases p with
        | speech =>
            have hstep : run_trace fs ((a, ResponseType.speech) :: rest)
                = (a, ResponseType.speech)
                  :: run_trace
                      ⟨some a,
                       if fs.last_speaker = some a then
                         fs.consecutive_count + 1 else 1⟩ rest := by
              simp [run_trace, step_commit, hf]
            have hle' :
                (if fs.last_speaker = some a then
                  fs.consecutive_count + 1 else 1) ≤ 2 := by
              by_cases hl : fs.last_speaker = some a
              · have : ¬ 2 ≤ fs.consecutive_count := fun hh => hf ⟨hl, hh⟩
                simp [hl]
                omega
              · simp [hl]
            rw [hstep]
            have hrec := ih
              ⟨some a,
               if fs.last_speaker = some a then
                 fs.consecutive_count + 1 else 1⟩ hle'
            simp only [runs_ok, Bool.and_eq_true, decide_eq_true_eq]
            exact ⟨hle', hrec⟩
        | thought =>
            have hstep : run_trace fs ((a, ResponseType.thought) :: rest)
                = (a, ResponseType.thought)
                  :: run_trace FairnessState.init rest := by
              simp [run_trace, step_commit, hf]
            rw [hstep]
            have hinit := ih FairnessState.init (by decide)
            simpa [runs_ok] using hinit
        | action =>
            have hstep : run_trace fs ((a, ResponseType.action) :: rest)
                = (a, ResponseType.action)
                  :: run_trace FairnessState.init rest := by
              simp [run_trace, step_commit, hf]
            rw [hstep]
            have hinit := ih FairnessState.init (by decide)
            simpa [runs_ok] using hinit
        | nothing =>
            have hstep : run_trace fs ((a, ResponseType.nothing) :: rest)
                = (a, ResponseType.nothing)
                  :: run_trace FairnessState.init rest := by
              simp [run_trace, step_commit, hf]
            rw [hstep]
            have hinit := ih FairnessState.init (by decide)
            simpa [runs_ok] using hinit
        | goodbye =>
            have hstep : run_trace fs ((a, ResponseType.goodbye) :: rest)
                = (a, ResponseType.goodbye)
                  :: run_trace FairnessState.init rest := by
              simp [run_trace, step_commit, hf]
            rw [hstep]
            have hinit := ih FairnessState.init (by decide)
            simpa [runs_ok] using hinit

theorem runs_ok_no_triple (pre : List (String × ResponseType)) :
    ∀ (c : ℕ) (ls : Option String) (a : String)
      (post l : List (String × ResponseType)),
      runs_ok c ls l = true →
      l ≠ pre ++ (a, ResponseType.speech) :: (a, ResponseType.speech)
        :: (a, ResponseType.speech) :: post := by
  induction pre with
  | nil =>
      intro c ls a post l hok heq
      subst heq
      simp only [List.nil_append, runs_ok, Bool.and_eq_true,
        decide_eq_true_eq] at hok
      obtain ⟨hc1, hc2, hc3, _⟩ := hok
      by_cases hl : ls = some a <;> simp [hl] at hc1 hc2 hc3
  | cons x pre' ih =>
      intro c ls a post l hok heq
      subst heq
      obtain ⟨b, cat⟩ := x
      cases cat with
      | speech =>
          simp only [List.cons_append, runs_ok, Bool.and_eq_true,
            decide_eq_true_eq] at hok
          exact ih _ (some b) a post _ hok.2 rfl
      | thought =>
          simp only [List.cons_append, runs_ok] at hok
          exact ih 0 none a post _ hok rfl
      | action =>
          simp only [List.cons_append, runs_ok] at hok
          exact ih 0 none a post _ hok rfl
      | nothing =>
          simp only [List.cons_append, runs_ok] at hok
          exact ih 0 none a post _ hok rfl
      | goodbye =>
          simp only [List.cons_append, runs_ok] at hok
          exact ih 0 none a post _ hok rfl

/-- C2: in every execution reachable from the initial fairness state, no
agent is committed as `Speech` on three consecutive turns; once an agent has
spoken 2 consecutive turns its next selected turn is forced to `Action`
without invoking the external response producer, and the consecutive-speaker
counter resets whenever the committed outcome is not `Speech`. -/
theorem speech_fairness_cap (steps pre post : List (String × ResponseType))
    (a : String) :
    run_trace FairnessState.init steps
      ≠ pre ++ (a, ResponseType.speech) :: (a, ResponseType.speech)
          :: (a, ResponseType.speech) :: post
    ∧ (∀ (fs : FairnessState) (p : ResponseType),
        fs.last_speaker = some a → 2 ≤ fs.consecutive_count →
        step_commit fs a p
          = (ResponseType.action, false, FairnessState.init))
    ∧ (∀ (fs : FairnessState) (p : ResponseType),
        (step_commit fs a p).1 ≠ ResponseType.speech →
        (step_commit fs a p).2.2 = FairnessState.init) := by
  refine ⟨?_, ?_, ?_⟩
  · exact runs_ok_no_triple pre 0 none a post _
      (runs_ok_run_trace steps FairnessState.init (by decide))
  · intro fs p hl hc
    simp [step_commit, hl, hc]
  · intro fs p hns
    by_cases hfc : fs.last_speaker = some a ∧ 2 ≤ fs.consecutive_count
    · unfold step_commit
      rw [if_pos hfc]
    · unfold step_commit at hns ⊢
      rw [if_neg hfc] at hns ⊢
      cases p with
      | speech => exact absurd rfl hns
      | thought => rfl
      | action => rfl
      | nothing => rfl
      | goodbye => rfl

/-- C2 witness: three consecutive speech proposals by one agent are committed
as speech, speech, forced action — never three speeches; a state with two
consecutive speeches forces `Action` with no producer call; a non-speech
outcome resets the counter. -/
theorem speech_fairness_cap_witness :
    run_trace FairnessState.init
        [("x", ResponseType.speech), ("x", ResponseType.speech),
         ("x", ResponseType.speech)]
      ≠ [("x", ResponseType.speech), ("x", ResponseType.speech),
         ("x", ResponseType.speech)]
    ∧ step_commit ⟨some "x", 2⟩ "x" ResponseType.speech
        = (ResponseType.action, false, FairnessState.init)
    ∧ (step_commit FairnessState.init "x" ResponseType.thought).2.2
        = FairnessState.init := by
  refine ⟨?_, ?_, ?_⟩
  · have h := (speech_fairness_cap
      [("x", ResponseType.speech), ("x", ResponseType.speech),
       ("x", ResponseType.speech)] [] [] "x").1
    simpa using h
  · exact (speech_fairness_cap [] [] [] "x").2.1 ⟨some "x", 2⟩
      ResponseType.speech rfl (by decide)
  · exact (speech_fairness_cap [] [] [] "x").2.2 FairnessState.init
      ResponseType.thought (by decide)
